import Mathlib

/-!
Shallow embedding of `src/js/hitbtc.js` (the hitbtc exchange adapter of the
ccxt library), together with theorems settling the frozen claims about it.

Modelling conventions:
* JavaScript numbers are modelled by `JsNum`: either `undef` (the field was
  absent, i.e. `safeFloat` returned `undefined`), `nan` (the result of
  arithmetic on a non-number, e.g. `undefined * undefined`), or `num q` with
  `q : ℚ` (the exchange sends decimal strings, parsed exactly).
* Raw exchange records become structures whose numeric fields hold the
  result of `this.safeFloat (record, field)` and whose string fields hold
  the result of `this.safeString (record, field)` (`Option String`).
* The ambient state `this.markets_by_id` and `this.orders` is passed as
  explicit association lists; `this.apiKey` / `this.secret` as strings
  (the empty string standing for absent credentials, which are falsy).
* A JavaScript `TypeError` (property access on `undefined`) is modelled by
  returning `none` from the parser.
* Timestamp conversion (`parse8601` / `iso8601`, base-class helpers) is
  irrelevant to every claim; timestamps are carried as their raw strings.
-/

namespace Hitbtc

/-- A JavaScript number-or-undefined as it flows through the adapter:
`undef` models `undefined`, `nan` models `NaN`, `num q` an actual number. -/
inductive JsNum where
  | undef
  | nan
  | num (q : ℚ)
deriving DecidableEq, Repr

namespace JsNum

/-- JS `x !== undefined` (note `NaN !== undefined` is `true`). -/
def isDef : JsNum → Bool
  | .undef => false
  | _ => true

/-- JS `x > 0` (`false` on `undefined` and `NaN`). -/
def gtZero : JsNum → Bool
  | .num q => decide (0 < q)
  | _ => false

/-- JS addition: any non-number operand yields `NaN`. -/
def add : JsNum → JsNum → JsNum
  | .num a, .num b => .num (a + b)
  | _, _ => .nan

/-- JS subtraction. -/
def sub : JsNum → JsNum → JsNum
  | .num a, .num b => .num (a - b)
  | _, _ => .nan

/-- JS multiplication. -/
def mul : JsNum → JsNum → JsNum
  | .num a, .num b => .num (a * b)
  | _, _ => .nan

/-- JS division.  The source guards every division by a positivity test on
the denominator, so the zero-denominator case (JS `Infinity`/`NaN`, which
has no counterpart here) is unreachable; we map it to `nan`. -/
def div : JsNum → JsNum → JsNum
  | .num a, .num b => if b = 0 then .nan else .num (a / b)
  | _, _ => .nan

end JsNum

/-- The unified exception taxonomy used by the adapter
(`require ('./base/errors')`). -/
inductive Exn where
  | badSymbol
  | permissionDenied
  | exchangeError
  | exchangeNotAvailable
  | orderNotFound
  | insufficientFunds
  | invalidOrder
  | requestTimeout
  | authenticationError
deriving DecidableEq, Repr

/-- The `'exceptions'` table of `describe ()`: exchange error code (as a
string, the way `safeString` renders the numeric JSON code) to exception. -/
def exceptions : List (String × Exn) :=
  [ ("504", .requestTimeout),
    ("1002", .authenticationError),
    ("1003", .permissionDenied),
    ("2010", .invalidOrder),
    ("2001", .badSymbol),
    ("2011", .invalidOrder),
    ("2020", .invalidOrder),
    ("20002", .orderNotFound),
    ("20001", .insufficientFunds) ]

/-- The nested `response['error']` object of a decoded error body, after
`safeString` extraction of its `code` and `message` members. -/
structure ErrInfo where
  code : Option String
  message : Option String
deriving DecidableEq, Repr

/-- A decoded JSON error response: `error = none` models a body without an
`'error'` key. -/
structure ErrResponse where
  error : Option ErrInfo
deriving DecidableEq, Repr

/-- Outcome of `handleErrors`: either it returns (falls through to the
base client's generic handling) or it throws an exception. -/
inductive HandleOutcome where
  | pass
  | throws (e : Exn)
deriving DecidableEq, Repr

/-- Base-class `throwExactlyMatchedException`: throws `table[key]` when the
key is defined and present, otherwise falls through (`none`). -/
def throwExactlyMatchedException (table : List (String × Exn)) :
    Option String → Option Exn
  | none => none
  | some c => table.lookup c

/-- Source `handleErrors (code, reason, url, method, headers, body, response, ...)`
from `src/js/hitbtc.js`; only the arguments the body reads are kept
(`code` the HTTP status, `body` the raw text, `response` the decoded JSON,
`none` when decoding produced nothing). -/
def handleErrors (code : ℕ) (body : String) (response : Option ErrResponse) :
    HandleOutcome :=
  match response with
  | none => .pass
  | some resp =>
    if 400 ≤ code then
      if code = 503 ∨ code = 504 then .throws .exchangeNotAvailable
      else if code = 429 then .pass
      else
        let viaBody : Option Exn :=
          if body.data.head? = some '{' then
            match resp.error with
            | some err =>
              match throwExactlyMatchedException exceptions err.code with
              | some e => some e
              | none =>
                if err.message = some "Duplicate clientOrderId" then
                  some .invalidOrder
                else none
            | none => none
          else none
        match viaBody with
        | some e => .throws e
        | none => .throws .exchangeError
    else .pass

/-- The `statuses` table of `parseOrderStatus`. -/
def orderStatuses : List (String × String) :=
  [ ("new", "open"),
    ("suspended", "open"),
    ("partiallyFilled", "open"),
    ("filled", "closed"),
    ("canceled", "canceled"),
    ("expired", "failed") ]

/-- Source `parseOrderStatus (status)`: `safeString (statuses, status, status)`. -/
def parseOrderStatus : Option String → Option String
  | none => none
  | some s => some ((orderStatuses.lookup s).getD s)

/-- A unified market record, with the fields this adapter reads back
(`id`, `symbol`, `quote`, `feeCurrency`). -/
structure Market where
  id : String
  symbol : String
  base : String
  quote : String
  feeCurrency : String
deriving DecidableEq, Repr

/-- A raw ticker record (fields after `safeFloat` / raw timestamp). -/
structure RawTicker where
  timestamp : Option String
  volume : JsNum
  volumeQuote : JsNum
  open_ : JsNum
  last : JsNum
  high : JsNum
  low : JsNum
  bid : JsNum
  ask : JsNum
deriving DecidableEq, Repr

/-- The unified ticker produced by `parseTicker`. -/
structure UnifiedTicker where
  symbol : Option String
  timestamp : Option String
  high : JsNum
  low : JsNum
  bid : JsNum
  ask : JsNum
  vwap : JsNum
  open_ : JsNum
  close : JsNum
  last : JsNum
  change : JsNum
  percentage : JsNum
  average : JsNum
  baseVolume : JsNum
  quoteVolume : JsNum
deriving DecidableEq, Repr

/-- Source `parseTicker (ticker, market = undefined)` from `src/js/hitbtc.js`. -/
def parseTicker (ticker : RawTicker) (market : Option Market) : UnifiedTicker :=
  let symbol := market.map (·.symbol)
  let baseVolume := ticker.volume
  let quoteVolume := ticker.volumeQuote
  let o := ticker.open_
  let last := ticker.last
  let cpa : JsNum × JsNum × JsNum :=
    if last.isDef && o.isDef then
      let change := last.sub o
      let average := (last.add o).div (.num 2)
      let percentage :=
        if o.gtZero then (change.div o).mul (.num 100) else .undef
      (change, percentage, average)
    else (.undef, .undef, .undef)
  let vwap :=
    if quoteVolume.isDef && (baseVolume.isDef && baseVolume.gtZero) then
      quoteVolume.div baseVolume
    else .undef
  { symbol := symbol
    timestamp := ticker.timestamp
    high := ticker.high
    low := ticker.low
    bid := ticker.bid
    ask := ticker.ask
    vwap := vwap
    open_ := o
    close := last
    last := last
    change := cpa.1
    percentage := cpa.2.1
    average := cpa.2.2
    baseVolume := baseVolume
    quoteVolume := quoteVolume }

/-- A fee sub-record (`{ cost, currency }`). -/
structure Fee where
  cost : JsNum
  currency : Option String
deriving DecidableEq, Repr

/-- A raw trade record (a `fetchTrades` entry or an embedded fill of
`tradesReport`): numeric fields after `safeFloat`, strings after
`safeString`. -/
structure RawTrade where
  id : Option String
  clientOrderId : Option String
  symbol : Option String
  timestamp : Option String
  price : JsNum
  quantity : JsNum
  fee : JsNum
  side : Option String
deriving DecidableEq, Repr

/-- The unified trade produced by `parseTrade`. -/
structure UnifiedTrade where
  id : Option String
  order : Option String
  timestamp : Option String
  symbol : Option String
  side : Option String
  price : JsNum
  amount : JsNum
  cost : JsNum
  fee : Option Fee
deriving DecidableEq, Repr

/-- Source `parseTrade (trade, market = undefined)` from `src/js/hitbtc.js`.
`marketsById` is the ambient `this.markets_by_id` table. -/
def parseTrade (marketsById : List (String × Market)) (trade : RawTrade)
    (market0 : Option Market) : UnifiedTrade :=
  -- let symbol = undefined; const marketId = safeString (trade, 'symbol');
  -- if marketId in markets_by_id then market := ... else symbol := marketId
  let sm : Option String × Option Market :=
    match trade.symbol with
    | some marketId =>
      match marketsById.lookup marketId with
      | some m => (none, some m)
      | none => (some marketId, market0)
    | none => (none, market0)
  -- if symbol undefined and market defined: symbol := market['symbol']
  let symbol : Option String :=
    match sm.1, sm.2 with
    | none, some m => some m.symbol
    | s, _ => s
  let feeCost := trade.fee
  let fee : Option Fee :=
    if feeCost.isDef then
      -- feeCurrencyCode = market ? market['feeCurrency'] : undefined
      some { cost := feeCost, currency := sm.2.map (·.feeCurrency) }
    else none
  let price := trade.price
  let amount := trade.quantity
  -- const cost = price * amount;   (unguarded: NaN when either is absent)
  let cost := price.mul amount
  { id := trade.id
    order := trade.clientOrderId
    timestamp := trade.timestamp
    symbol := symbol
    side := trade.side
    price := price
    amount := amount
    cost := cost
    fee := fee }

/-- The unified order produced by `parseOrder`. -/
structure UnifiedOrder where
  id : Option String
  clientOrderId : Option String
  timestamp : Option String
  lastTradeTimestamp : Option String
  status : Option String
  symbol : Option String
  type_ : Option String
  side : Option String
  price : JsNum
  average : JsNum
  amount : JsNum
  cost : JsNum
  filled : JsNum
  remaining : JsNum
  fee : Option Fee
  trades : Option (List UnifiedTrade)
deriving DecidableEq, Repr

/-- A raw order record as returned by the order endpoints. -/
structure RawOrder where
  createdAt : Option String
  updatedAt : Option String
  symbol : Option String
  quantity : JsNum
  cumQuantity : JsNum
  status : Option String
  clientOrderId : Option String
  price : JsNum
  type_ : Option String
  side : Option String
  tradesReport : Option (List RawTrade)
deriving DecidableEq, Repr

/-- The JavaScript property key used when indexing an object with a possibly
undefined value (`obj[id]` coerces `undefined` to the string key
`"undefined"`). -/
def jsKey : Option String → String
  | some s => s
  | none => "undefined"

/-- The symbol/market resolution at the top of `parseOrder`: returns the
`symbol` so far (before the `market['id']` fallback) and the market in
scope after the `markets_by_id` lookup. -/
def resolveOrderMarket (marketsById : List (String × Market))
    (order : RawOrder) (market0 : Option Market) :
    Option String × Option Market :=
  match order.symbol with
  | some marketId =>
    match marketsById.lookup marketId with
    | some m => (some m.symbol, some m)
    | none => (some marketId, market0)
  | none => (none, market0)

/-- The price backfill of `parseOrder`: when the record carries no price and
the id is a key of the order cache, reuse the cached order's price. -/
def backfillPrice (orders : List (String × UnifiedOrder))
    (id : Option String) (price0 : JsNum) : JsNum :=
  if price0.isDef then price0
  else
    match orders.lookup (jsKey id) with
    | some cached => cached.price
    | none => price0

/-- One iteration of the fills loop of `parseOrder`, folding
`(tradesCost, feeCost)` over the parsed fills: `feeCost` is initialised to
`0` on first use, `tradesCost` accumulates `trades[i]['cost']`, and a fill's
fee cost is added only when it is defined. -/
def fillStep (acc : JsNum × JsNum) (t : UnifiedTrade) : JsNum × JsNum :=
  let feeCost := if acc.2.isDef then acc.2 else .num 0
  let tradeFeeCost : JsNum :=
    match t.fee with
    | some f => f.cost
    | none => .undef
  (acc.1.add t.cost,
   if tradeFeeCost.isDef then feeCost.add tradeFeeCost else feeCost)

/-- Source `parseOrder (order, market = undefined)` from `src/js/hitbtc.js`.
`marketsById` is `this.markets_by_id` and `orders` is the mutable order
cache `this.orders`.  The result is `none` exactly when the source would
throw a `TypeError`: a defined fee total with no market in scope reaches
`market['quote']` on `undefined`. -/
def parseOrder (marketsById : List (String × Market))
    (orders : List (String × UnifiedOrder)) (order : RawOrder)
    (market0 : Option Market) : Option UnifiedOrder :=
  let created := order.createdAt
  let updated := order.updatedAt
  let sm := resolveOrderMarket marketsById order market0
  let market := sm.2
  -- if symbol still undefined and market defined: symbol := market['id']
  let symbol : Option String :=
    match sm.1, market with
    | none, some m => some m.id
    | s, _ => s
  let amount := order.quantity
  let filled := order.cumQuantity
  let status := parseOrderStatus order.status
  let id := order.clientOrderId
  let price := backfillPrice orders id order.price
  let rc : JsNum × JsNum :=
    if amount.isDef then
      if filled.isDef then
        (amount.sub filled, if price.isDef then filled.mul price else .undef)
      else (.undef, .undef)
    else (.undef, .undef)
  let remaining := rc.1
  let type_ := order.type_
  let side := order.side
  match order.tradesReport with
  | none =>
    some { id := id, clientOrderId := id, timestamp := created,
           lastTradeTimestamp := updated, status := status, symbol := symbol,
           type_ := type_, side := side, price := price, average := .undef,
           amount := amount, cost := rc.2, filled := filled,
           remaining := remaining, fee := none, trades := none }
  | some rawFills =>
    -- trades = this.parseTrades (trades, market): maps parseTrade over the
    -- raw fills (the base-class timestamp sort is a permutation and does
    -- not affect the summed totals below)
    let trades := rawFills.map (fun t => parseTrade marketsById t market)
    let tf := trades.foldl fillStep (.num 0, .undef)
    let cost := tf.1
    let feeCost := tf.2
    let ap : JsNum × JsNum :=
      if filled.isDef && filled.gtZero then
        let average := cost.div filled
        (average,
         if type_ = some "market" ∧ price.isDef = false then average else price)
      else (.undef, price)
    let average := ap.1
    let price := ap.2
    if feeCost.isDef then
      match market with
      | none => none  -- JS TypeError: market['quote'] with market undefined
      | some m =>
        some { id := id, clientOrderId := id, timestamp := created,
               lastTradeTimestamp := updated, status := status,
               symbol := symbol, type_ := type_, side := side, price := price,
               average := average, amount := amount, cost := cost,
               filled := filled, remaining := remaining,
               fee := some { cost := feeCost, currency := some m.quote },
               trades := some trades }
    else
      some { id := id, clientOrderId := id, timestamp := created,
             lastTradeTimestamp := updated, status := status,
             symbol := symbol, type_ := type_, side := side, price := price,
             average := average, amount := amount, cost := cost,
             filled := filled, remaining := remaining, fee := none,
             trades := some trades }

/-- Assignment `this.orders[id] = order` on the cache: at most one entry per
key, the new binding replacing any prior one. -/
def setOrder (orders : List (String × UnifiedOrder)) (key : String)
    (v : UnifiedOrder) : List (String × UnifiedOrder) :=
  (key, v) :: orders.filter (fun kv => kv.1 ≠ key)

/-- The tail of `createOrder` after the HTTP response arrives: parse the
response, throw `InvalidOrder` when the parsed status is `'rejected'`, and
otherwise store the order in the cache under its id and return it.  The
outer `Option` is the `parseOrder` crash propagation. -/
def createOrderResult (marketsById : List (String × Market))
    (orders : List (String × UnifiedOrder)) (response : RawOrder) :
    Option (Except Exn (UnifiedOrder × List (String × UnifiedOrder))) :=
  (parseOrder marketsById orders response none).map (fun order =>
    if order.status = some "rejected" then .error .invalidOrder
    else .ok (order, setOrder orders (jsKey order.id) order))

/-- A JSON-able request parameter value: the adapter sends strings and
numbers. -/
inductive JVal where
  | str (s : String)
  | num (q : ℚ)
deriving DecidableEq, Repr

/-- Render a parameter value as text (for URLs and JSON). -/
def JVal.render : JVal → String
  | .str s => s
  | .num q => toString q

/-- Modelled from the spec: the base-class `urlencode` turns the remaining
parameters into a query string (`k=v` pairs joined by `&`); percent-escaping
is elided since no claim involves characters needing it. -/
def urlencode (ps : List (String × JVal)) : String :=
  String.intercalate "&" (ps.map (fun kv => kv.1 ++ "=" ++ kv.2.render))

/-- Modelled from the spec: the base-class `json` helper serialises the
parameter map as a JSON object (string escaping elided for values without
special characters). -/
def jsonEncode (ps : List (String × JVal)) : String :=
  "\x7b" ++
    String.intercalate ","
      (ps.map (fun kv =>
        "\"" ++ kv.1 ++ "\":" ++
          (match kv.2 with
           | .str s => "\"" ++ s ++ "\""
           | .num q => toString q))) ++
  "\x7d"

/-- Modelled from the spec: the base-class `extractParams` lists the
`\x7bname\x7d` placeholders of a path template.  The recursion is fuelled
(each step consumes at least one character, so `length` fuel suffices) to
stay structurally recursive. -/
def extractParamsFuel : ℕ → List Char → List String
  | 0, _ => []
  | _ + 1, [] => []
  | fuel + 1, c :: rest =>
    if c = '{' then
      String.mk (rest.takeWhile (fun d => d ≠ '}')) ::
        extractParamsFuel fuel ((rest.dropWhile (fun d => d ≠ '}')).drop 1)
    else
      extractParamsFuel fuel rest

/-- Placeholder names of a path template. -/
def extractParams (path : String) : List String :=
  extractParamsFuel path.data.length path.data

/-- Modelled from the spec: the base-class `implodeParams` substitutes each
placeholder whose name is a key of `params` by the rendered value, leaving
unknown placeholders in place (fuelled like `extractParamsFuel`). -/
def implodeParamsFuel (params : List (String × JVal)) :
    ℕ → List Char → List Char
  | 0, _ => []
  | _ + 1, [] => []
  | fuel + 1, c :: rest =>
    if c = '{' then
      let name := String.mk (rest.takeWhile (fun d => d ≠ '}'))
      let tail :=
        implodeParamsFuel params fuel ((rest.dropWhile (fun d => d ≠ '}')).drop 1)
      match params.lookup name with
      | some v => v.render.data ++ tail
      | none => '{' :: name.data ++ '}' :: tail
    else
      c :: implodeParamsFuel params fuel rest

/-- Substitute path parameters into a template. -/
def implodeParams (path : String) (params : List (String × JVal)) : String :=
  String.mk (implodeParamsFuel params path.data.length path.data)

/-- The base64 alphabet. -/
def base64Alphabet : List Char :=
  "ABCDEFGHIJKLMNOPQRSTUVWXYZabcdefghijklmnopqrstuvwxyz0123456789+/".data

/-- One base64 digit. -/
def base64Digit (n : ℕ) : Char :=
  base64Alphabet.getD n '='

/-- Modelled from the spec: standard base64 of a byte sequence (RFC 4648,
with `=` padding), as performed by the base-class `stringToBase64`. -/
def base64EncodeBytes : List ℕ → List Char
  | [] => []
  | [a] =>
    [base64Digit (a / 4), base64Digit (a % 4 * 16), '=', '=']
  | [a, b] =>
    [base64Digit (a / 4), base64Digit (a % 4 * 16 + b / 16),
     base64Digit (b % 16 * 4), '=']
  | a :: b :: c :: rest =>
    base64Digit (a / 4) :: base64Digit (a % 4 * 16 + b / 16) ::
      base64Digit (b % 16 * 4 + c / 64) :: base64Digit (c % 64) ::
        base64EncodeBytes rest

/-- The UTF-8 encoding of one character (RFC 3629). -/
def charUtf8Bytes (c : Char) : List ℕ :=
  let n := c.toNat
  if n < 128 then [n]
  else if n < 2048 then [192 + n / 64, 128 + n % 64]
  else if n < 65536 then
    [224 + n / 4096, 128 + n / 64 % 64, 128 + n % 64]
  else
    [240 + n / 262144, 128 + n / 4096 % 64, 128 + n / 64 % 64, 128 + n % 64]

/-- The UTF-8 bytes of a string (`this.encode`). -/
def strBytes (s : String) : List ℕ :=
  s.data.flatMap charUtf8Bytes

/-- Composition `this.stringToBase64 (this.encode (...))` followed by `this.decode`:
the base64 text of the string's UTF-8 bytes. -/
def stringToBase64 (s : String) : String :=
  String.mk (base64EncodeBytes (strBytes s))

/-- Value of `this.version` in `describe ()`. -/
def version : String := "2"

/-- Value of `this.urls['api'][api]`: the same host for both sections. -/
def apiBase (api : String) : String :=
  if api = "public" then "https://api.hitbtc.com" else "https://api.hitbtc.com"

/-- The request descriptor returned by `sign`. -/
structure SignedRequest where
  url : String
  method : String
  body : Option String
  headers : Option (List (String × String))
deriving DecidableEq, Repr

/-- The non-path parameters: `this.omit (params, this.extractParams (path))`. -/
def signQuery (path : String) (params : List (String × JVal)) :
    List (String × JVal) :=
  params.filter (fun kv => !(extractParams path).contains kv.1)

/-- Source `sign (path, api = 'public', method = 'GET', params = ...)` from
`src/js/hitbtc.js`.  Credentials are `apiKey`/`secret` (empty string for
absent, which is falsy); `checkRequiredCredentials` (base class, modelled
from the spec) throws `AuthenticationError` when either is absent. -/
def sign (apiKey secret : String) (path : String) (api : String)
    (method : String) (params : List (String × JVal)) :
    Except Exn SignedRequest :=
  let url0 := "/api/" ++ version ++ "/"
  let query := signQuery path params
  if api = "public" then
    let url1 := url0 ++ api ++ "/" ++ implodeParams path params
    let url2 := if query ≠ [] then url1 ++ "?" ++ urlencode query else url1
    .ok { url := apiBase api ++ url2, method := method, body := none,
          headers := none }
  else
    if apiKey = "" ∨ secret = "" then .error .authenticationError
    else
      let url1 := url0 ++ implodeParams path params
      let ub : String × Option String :=
        if method = "GET" then
          (if query ≠ [] then url1 ++ "?" ++ urlencode query else url1, none)
        else
          (url1, if query ≠ [] then some (jsonEncode query) else none)
      .ok { url := apiBase api ++ ub.1, method := method, body := ub.2,
            headers := some
              [ ("Authorization",
                 "Basic " ++ stringToBase64 (apiKey ++ ":" ++ secret)),
                ("Content-Type", "application/json") ] }

/-- The request object built by `withdraw (code, amount, address, tag)`:
`paymentId` is attached exactly when `tag` is truthy (a non-empty string). -/
def withdrawRequest (currencyId : String) (amount : ℚ) (address : String)
    (tag : Option String) : List (String × JVal) :=
  let base :=
    [ ("currency", JVal.str currencyId),
      ("amount", JVal.num amount),
      ("address", JVal.str address) ]
  match tag with
  | some t => if t ≠ "" then base ++ [("paymentId", JVal.str t)] else base
  | none => base

/-! ## Helper lemmas -/

/-- Looking up a key that is not among the keys of an association list
yields `none`. -/
theorem lookup_eq_none_of_not_mem_keys {α : Type} (l : List (String × α))
    (s : String) (h : s ∉ l.map Prod.fst) : l.lookup s = none := by
  induction l with
  | nil => rfl
  | cons kv rest ih =>
    simp only [List.map_cons, List.mem_cons, not_or] at h
    rw [List.lookup_cons]
    have : (s == kv.1) = false := beq_eq_false_iff_ne.mpr h.1
    rw [this]
    exact ih h.2

/-! ## Concrete records used by the claims -/

/-- The HTTP 504 error body quoted by the spec. -/
def gatewayTimeoutBody : String :=
  "\x7b\"error\":\x7b\"code\":504,\"message\":\"Gateway Timeout\"\x7d\x7d"

/-- The decoded form of `gatewayTimeoutBody` (after `safeString` of the
nested `code` and `message`). -/
def gatewayTimeoutError : ErrInfo :=
  { code := some "504", message := some "Gateway Timeout" }

/-- The decoded 504 response. -/
def gatewayTimeoutResponse : ErrResponse :=
  { error := some gatewayTimeoutError }

/-! ## C1: error classification for HTTP 504 and 429 -/

/-- C1 counterexample: on a failed call with HTTP status 504 and body
`(error (code 504) (message Gateway Timeout))`, `handleErrors` throws
`ExchangeNotAvailable` — the `code >= 400` branch tests the HTTP status
against 503/504 before ever consulting the body — and therefore does not
throw `RequestTimeout` as the claim states. -/
theorem c1_counterexample :
    handleErrors 504 gatewayTimeoutBody (some gatewayTimeoutResponse) =
      .throws .exchangeNotAvailable ∧
    handleErrors 504 gatewayTimeoutBody (some gatewayTimeoutResponse) ≠
      .throws .requestTimeout := by
  exact ⟨rfl, by decide⟩

/-- C1 (amended): HTTP status 504 (with the spec's body) raises the
service-unavailable error `ExchangeNotAvailable`, not a generic exchange
error; the `504 → RequestTimeout` entry of the exceptions table applies to
the body's nested error code only when the HTTP status is ≥ 400 but none of
503, 504, 429; and HTTP 429 raises no specific exception (falls through to
generic rate-limit handling). -/
theorem c1_error_classification :
    (handleErrors 504 gatewayTimeoutBody (some gatewayTimeoutResponse) =
        .throws .exchangeNotAvailable ∧
      HandleOutcome.throws .exchangeNotAvailable ≠
        .throws .exchangeError) ∧
    (∀ (code : ℕ) (body : String) (resp : ErrResponse) (err : ErrInfo),
      400 ≤ code → code ≠ 503 → code ≠ 504 → code ≠ 429 →
      body.data.head? = some '{' →
      resp.error = some err → err.code = some "504" →
      handleErrors code body (some resp) = .throws .requestTimeout) ∧
    (∀ (body : String) (resp : ErrResponse),
      handleErrors 429 body (some resp) = .pass) := by
  refine ⟨⟨rfl, by decide⟩, ?_, ?_⟩
  · intro code body resp err h400 h503 h504 h429 hbody herr hcode
    simp only [handleErrors]
    rw [if_pos h400, if_neg (not_or.mpr ⟨h503, h504⟩), if_neg h429]
    simp [hbody, herr, hcode,
      show throwExactlyMatchedException exceptions (some "504") =
        some Exn.requestTimeout from rfl]
  · intro body resp
    rfl

/-- C1 witness: the amended theorem at HTTP status 400 with the 504 body
(the exceptions-table path) and at HTTP status 429. -/
theorem c1_error_classification_witness :
    handleErrors 400 gatewayTimeoutBody (some gatewayTimeoutResponse) =
      .throws .requestTimeout ∧
    handleErrors 429 gatewayTimeoutBody (some gatewayTimeoutResponse) =
      .pass := by
  exact ⟨c1_error_classification.2.1 400 gatewayTimeoutBody
      gatewayTimeoutResponse gatewayTimeoutError (by decide) (by decide)
      (by decide) (by decide) (by decide) rfl rfl,
    c1_error_classification.2.2 gatewayTimeoutBody gatewayTimeoutResponse⟩

/-! ## C4: derived ticker fields -/

/-- A ticker with `last = 110`, `open = 100` (the spec's example). -/
def exampleTicker : RawTicker :=
  { timestamp := none, volume := .undef, volumeQuote := .undef,
    open_ := .num 100, last := .num 110, high := .undef, low := .undef,
    bid := .undef, ask := .undef }

/-- C4 counterexample: for `last = 110`, `open = -100` both operands of
`percentage` are defined and its denominator is non-zero, yet `parseTicker`
leaves `percentage` unset — the guard in the source is `open > 0`, not
`open ≠ 0` — contradicting the claim that the field is computed whenever
both operands are defined and the denominator is non-zero. -/
theorem c4_counterexample :
    (exampleTicker.last.isDef = true ∧
      JsNum.isDef (.num (-100)) = true ∧ (JsNum.num (-100) : JsNum) ≠ .num 0) ∧
    (parseTicker { exampleTicker with open_ := .num (-100) } none).percentage
      = .undef ∧
    (parseTicker { exampleTicker with open_ := .num (-100) } none).percentage
      ≠ ((exampleTicker.last.sub (.num (-100))).div (.num (-100))).mul
          (.num 100) := by
  refine ⟨⟨rfl, rfl, by decide⟩, rfl, by decide⟩

/-- C4 (amended): `parseTicker` computes `change = last − open` and
`average = (last + open) / 2` exactly when both `last` and `open` are
defined; `percentage = change / open × 100` exactly when additionally
`open > 0` (a positive, not merely non-zero, denominator); and
`vwap = quoteVolume / baseVolume` exactly when both volumes are defined and
`baseVolume > 0`; each field is unset otherwise.  In particular `last =
110`, `open = 100` give `change = 10`, `average = 105`, `percentage = 10`,
and `open = 0` leaves `percentage` unset. -/
theorem c4_ticker_derived_fields (t : RawTicker) (m : Option Market) :
    ((parseTicker t m).change =
      if t.last.isDef && t.open_.isDef then t.last.sub t.open_ else .undef) ∧
    ((parseTicker t m).average =
      if t.last.isDef && t.open_.isDef then
        (t.last.add t.open_).div (.num 2) else .undef) ∧
    ((parseTicker t m).percentage =
      if (t.last.isDef && t.open_.isDef) && t.open_.gtZero then
        ((t.last.sub t.open_).div t.open_).mul (.num 100) else .undef) ∧
    ((parseTicker t m).vwap =
      if t.volumeQuote.isDef && (t.volume.isDef && t.volume.gtZero) then
        t.volumeQuote.div t.volume else .undef) ∧
    (parseTicker exampleTicker none).change = .num 10 ∧
    (parseTicker exampleTicker none).average = .num 105 ∧
    (parseTicker exampleTicker none).percentage = .num 10 ∧
    (parseTicker { exampleTicker with open_ := .num 0 } none).percentage =
      .undef := by
  refine ⟨?_, ?_, ?_, ?_,
    by norm_num [parseTicker, exampleTicker, JsNum.isDef, JsNum.gtZero,
      JsNum.sub, JsNum.add, JsNum.div, JsNum.mul],
    by norm_num [parseTicker, exampleTicker, JsNum.isDef, JsNum.gtZero,
      JsNum.sub, JsNum.add, JsNum.div, JsNum.mul],
    by norm_num [parseTicker, exampleTicker, JsNum.isDef, JsNum.gtZero,
      JsNum.sub, JsNum.add, JsNum.div, JsNum.mul],
    rfl⟩
  · unfold parseTicker
    cases h : (t.last.isDef && t.open_.isDef) <;> simp [h]
  · unfold parseTicker
    cases h : (t.last.isDef && t.open_.isDef) <;> simp [h]
  · unfold parseTicker
    cases h : (t.last.isDef && t.open_.isDef) <;>
      cases hg : t.open_.gtZero <;> simp [h, hg]
  · unfold parseTicker
    cases h : (t.volumeQuote.isDef && (t.volume.isDef && t.volume.gtZero)) <;>
      simp [h]

/-! ## C5: order status mapping -/

/-- C5: `parseOrderStatus` maps through the fixed table — `new`,
`suspended`, `partiallyFilled` to `open`, `filled` to `closed`, `canceled`
to `canceled`, `expired` to `failed` — and returns any other status string
unchanged. -/
theorem c5_order_status_table :
    parseOrderStatus (some "new") = some "open" ∧
    parseOrderStatus (some "suspended") = some "open" ∧
    parseOrderStatus (some "partiallyFilled") = some "open" ∧
    parseOrderStatus (some "filled") = some "closed" ∧
    parseOrderStatus (some "canceled") = some "canceled" ∧
    parseOrderStatus (some "expired") = some "failed" ∧
    ∀ s : String, s ∉ orderStatuses.map Prod.fst →
      parseOrderStatus (some s) = some s := by
  refine ⟨rfl, rfl, rfl, rfl, rfl, rfl, ?_⟩
  intro s hs
  simp [parseOrderStatus, lookup_eq_none_of_not_mem_keys _ s hs]

/-- C5 witness: the passthrough clause at the unmapped status
`"rejected"`. -/
theorem c5_order_status_table_witness :
    "rejected" ∉ orderStatuses.map Prod.fst ∧
    parseOrderStatus (some "rejected") = some "rejected" :=
  ⟨by decide, c5_order_status_table.2.2.2.2.2.2 "rejected" (by decide)⟩

/-! ## C6: trade cost on missing price/quantity -/

/-- The `createMarketOrder` fill quoted in the source's doc comment
(`price "0.4644"`, `quantity "1"`, `fee "0.0004644"`). -/
def exampleRawTrade : RawTrade :=
  { id := some "386394956", clientOrderId := none, symbol := none,
    timestamp := some "2018-10-25T16:41:44.780Z", price := .num (4644/10000),
    quantity := .num 1, fee := .num (4644/10000000), side := none }

/-- C6: with both price and quantity present the unified cost is their
product, but on a record lacking the quantity field the unguarded
`price * amount` evaluates to `NaN` — a number, not the unset value the
claim (and the adapter's own convention, cf. the guarded cost computation
in `parseOrder`) requires. -/
theorem c6_cost_nan_when_quantity_missing :
    (parseTrade [] exampleRawTrade none).cost = .num (4644/10000) ∧
    (parseTrade [] { exampleRawTrade with quantity := .undef } none).cost =
      .nan ∧
    (parseTrade [] { exampleRawTrade with quantity := .undef } none).cost ≠
      .undef ∧
    (parseTrade [] { exampleRawTrade with price := .undef } none).cost =
      .nan := by
  refine ⟨by norm_num [parseTrade, exampleRawTrade, JsNum.mul],
    rfl, by decide, rfl⟩

/-! ## C3: price backfill from the order cache -/

/-- C3: on a raw order carrying no price whose `clientOrderId` is a key of
the order cache, `parseOrder` gives the parsed order the cached order's
price. -/
theorem c3_price_backfill (marketsById : List (String × Market))
    (orders : List (String × UnifiedOrder)) (o : RawOrder)
    (m0 : Option Market) (cid : String) (cached : UnifiedOrder) (p : ℚ)
    (hp : o.price = .undef)
    (hid : o.clientOrderId = some cid)
    (hc : orders.lookup cid = some cached)
    (hcp : cached.price = .num p)
    (u : UnifiedOrder)
    (hu : parseOrder marketsById orders o m0 = some u) :
    u.price = .num p := by
  have hbf : backfillPrice orders o.clientOrderId o.price = .num p := by
    simp [backfillPrice, hp, hid, jsKey, hc, hcp, JsNum.isDef]
  simp only [parseOrder, hbf] at hu
  rcases htr : o.tradesReport with _ | fills <;> simp only [htr] at hu
  · simp only [Option.some.injEq] at hu
    subst hu
    rfl
  · rw [if_neg (show ¬(o.type_ = some "market" ∧
        (JsNum.num p).isDef = false) from by simp [JsNum.isDef])] at hu
    by_cases hfc : (o.cumQuantity.isDef && o.cumQuantity.gtZero) = true
    · rw [if_pos hfc] at hu
      split at hu
      · rcases hm : (resolveOrderMarket marketsById o m0).2 with _ | m <;>
          simp only [hm] at hu
        · exact absurd hu (by simp)
        · simp only [Option.some.injEq] at hu
          subst hu
          rfl
      · simp only [Option.some.injEq] at hu
        subst hu
        rfl
    · rw [if_neg hfc] at hu
      split at hu
      · rcases hm : (resolveOrderMarket marketsById o m0).2 with _ | m <;>
          simp only [hm] at hu
        · exact absurd hu (by simp)
        · simp only [Option.some.injEq] at hu
          subst hu
          rfl
      · simp only [Option.some.injEq] at hu
        subst hu
        rfl

/-- A cached order whose last known price is 50. -/
def cachedOrder50 : UnifiedOrder :=
  { id := some "abc", clientOrderId := some "abc", timestamp := none,
    lastTradeTimestamp := none, status := some "open", symbol := none,
    type_ := some "limit", side := some "buy", price := .num 50,
    average := .undef, amount := .num 1, cost := .undef, filled := .undef,
    remaining := .undef, fee := none, trades := none }

/-- A raw order without a price field, id `"abc"`. -/
def pricelessOrderRaw : RawOrder :=
  { createdAt := none, updatedAt := none, symbol := none,
    quantity := .num 1, cumQuantity := .undef, status := some "new",
    clientOrderId := some "abc", price := .undef, type_ := some "market",
    side := some "buy", tradesReport := none }

/-- C3 witness: with cached price 50, the parsed order's price is 50. -/
theorem c3_price_backfill_witness :
    (parseOrder [] [("abc", cachedOrder50)] pricelessOrderRaw none).map
      (·.price) = some (.num 50) := by
  obtain ⟨u, hu⟩ :
      ∃ u, parseOrder [] [("abc", cachedOrder50)] pricelessOrderRaw none =
        some u := ⟨_, rfl⟩
  rw [hu, Option.map_some']
  rw [c3_price_backfill [] [("abc", cachedOrder50)] pricelessOrderRaw none
    "abc" cachedOrder50 50 rfl rfl rfl rfl u hu]

/-! ## C10: symbol fallback asymmetry between parseOrder and parseTrade -/

/-- C10: on a raw record without a symbol field but with an explicit market
argument, `parseOrder` falls back to the market's exchange-native id
(`market['id']`) while `parseTrade` uses the market's unified symbol
(`market['symbol']`). -/
theorem c10_symbol_fallback (marketsById : List (String × Market))
    (orders : List (String × UnifiedOrder)) (o : RawOrder) (t : RawTrade)
    (m : Market)
    (ho : o.symbol = none) (ht : t.symbol = none) :
    (∀ u, parseOrder marketsById orders o (some m) = some u →
      u.symbol = some m.id) ∧
    (parseTrade marketsById t (some m)).symbol = some m.symbol := by
  constructor
  · intro u hu
    simp only [parseOrder,
      show resolveOrderMarket marketsById o (some m) = (none, some m) from by
        simp [resolveOrderMarket, ho]] at hu
    rcases htr : o.tradesReport with _ | fills <;> simp only [htr] at hu
    · simp only [Option.some.injEq] at hu
      subst hu
      rfl
    · split at hu
      · simp only [Option.some.injEq] at hu
        subst hu
        rfl
      · simp only [Option.some.injEq] at hu
        subst hu
        rfl
  · simp [parseTrade, ht]

/-- The ETH/BTC market (native id `"ETHBTC"`). -/
def ethbtcMarket : Market :=
  { id := "ETHBTC", symbol := "ETH/BTC", base := "ETH", quote := "BTC",
    feeCurrency := "BTC" }

/-- A raw order with no symbol field. -/
def symbollessOrderRaw : RawOrder :=
  { createdAt := none, updatedAt := none, symbol := none,
    quantity := .undef, cumQuantity := .undef, status := none,
    clientOrderId := none, price := .undef, type_ := none, side := none,
    tradesReport := none }

/-- A raw trade with no symbol field. -/
def symbollessTradeRaw : RawTrade :=
  { id := none, clientOrderId := none, symbol := none, timestamp := none,
    price := .undef, quantity := .undef, fee := .undef, side := none }

/-- C10 witness: with the ETH/BTC market, the parsed order's symbol is the
native id `"ETHBTC"` while the parsed trade's is the unified `"ETH/BTC"`. -/
theorem c10_symbol_fallback_witness :
    (parseOrder [] [] symbollessOrderRaw (some ethbtcMarket)).map (·.symbol)
      = some (some "ETHBTC") ∧
    (parseTrade [] symbollessTradeRaw (some ethbtcMarket)).symbol =
      some "ETH/BTC" ∧
    ("ETHBTC" : String) ≠ "ETH/BTC" := by
  obtain ⟨h1, h2⟩ := c10_symbol_fallback [] [] symbollessOrderRaw
    symbollessTradeRaw ethbtcMarket rfl rfl
  obtain ⟨u, hu⟩ :
      ∃ u, parseOrder [] [] symbollessOrderRaw (some ethbtcMarket) = some u :=
    ⟨_, rfl⟩
  refine ⟨?_, h2, by decide⟩
  rw [hu, Option.map_some', h1 u hu]
  rfl

/-! ## C7: createOrder rejection and cache update -/

/-- Entries with other keys survive the replacement filter of `setOrder`. -/
theorem lookup_filter_ne (orders : List (String × UnifiedOrder))
    (k k' : String) (h : k' ≠ k) :
    (orders.filter (fun kv => kv.1 ≠ k)).lookup k' = orders.lookup k' := by
  induction orders with
  | nil => rfl
  | cons kv rest ih =>
    by_cases hk : kv.1 = k
    · rw [List.filter_cons_of_neg (by simp [hk]), ih, List.lookup_cons,
        show (k' == kv.1) = false from beq_eq_false_iff_ne.mpr (hk ▸ h)]
    · rw [List.filter_cons_of_pos (by simp [hk]), List.lookup_cons,
        List.lookup_cons]
      cases hbe : (k' == kv.1)
      · exact ih
      · rfl

/-- C7: after a successful order-creation response, the call throws
`InvalidOrder` exactly when the parsed order's status is `"rejected"`;
otherwise the parsed order is returned and stored in the cache under its
id, replacing any prior entry with that id and leaving every other key's
binding unchanged. -/
theorem c7_create_order (marketsById : List (String × Market))
    (orders : List (String × UnifiedOrder)) (response : RawOrder)
    (u : UnifiedOrder)
    (hu : parseOrder marketsById orders response none = some u) :
    (u.status = some "rejected" →
      createOrderResult marketsById orders response =
        some (.error .invalidOrder)) ∧
    (u.status ≠ some "rejected" →
      createOrderResult marketsById orders response =
        some (.ok (u, setOrder orders (jsKey u.id) u)) ∧
      (setOrder orders (jsKey u.id) u).lookup (jsKey u.id) = some u ∧
      ∀ k, k ≠ jsKey u.id →
        (setOrder orders (jsKey u.id) u).lookup k = orders.lookup k) := by
  constructor
  · intro h
    simp [createOrderResult, hu, h]
  · intro h
    refine ⟨by simp [createOrderResult, hu, h], ?_, ?_⟩
    · simp [setOrder, List.lookup_cons]
    · intro k hk
      rw [setOrder, List.lookup_cons,
        show (k == jsKey u.id) = false from beq_eq_false_iff_ne.mpr hk]
      exact lookup_filter_ne orders (jsKey u.id) k hk

/-- A successful (non-rejected) order-creation response. -/
def newOrderResponse : RawOrder :=
  { createdAt := none, updatedAt := none, symbol := none,
    quantity := .num 1, cumQuantity := .undef, status := some "new",
    clientOrderId := some "xyz", price := .num 5, type_ := some "limit",
    side := some "buy", tradesReport := none }

/-- The parsed form of `newOrderResponse`. -/
def newParsedOrder : UnifiedOrder :=
  { id := some "xyz", clientOrderId := some "xyz", timestamp := none,
    lastTradeTimestamp := none, status := some "open", symbol := none,
    type_ := some "limit", side := some "buy", price := .num 5,
    average := .undef, amount := .num 1, cost := .undef, filled := .undef,
    remaining := .undef, fee := none, trades := none }

/-- C7 witness: the non-rejected branch at a concrete response, and the
rejected branch at the same response with status `"rejected"`. -/
theorem c7_create_order_witness :
    (createOrderResult [] [] newOrderResponse =
      some (.ok (newParsedOrder, setOrder [] (jsKey newParsedOrder.id)
        newParsedOrder)) ∧
    (setOrder [] (jsKey newParsedOrder.id) newParsedOrder).lookup
      (jsKey newParsedOrder.id) = some newParsedOrder) ∧
    createOrderResult [] [] { newOrderResponse with
      status := some "rejected" } = some (.error .invalidOrder) := by
  constructor
  · have h := (c7_create_order [] [] newOrderResponse newParsedOrder
      rfl).2 (by decide)
    exact ⟨h.1, h.2.1⟩
  · exact (c7_create_order [] [] { newOrderResponse with
      status := some "rejected" }
      { newParsedOrder with status := some "rejected" } rfl).1 (by decide)

/-! ## C9: withdrawal paymentId -/

/-- C9: the request built by `withdraw` carries the tag under the key
`paymentId` exactly when the tag is a non-empty string, and carries no
`paymentId` key at all when the tag is empty or absent. -/
theorem c9_withdraw_payment_id (currencyId : String) (amount : ℚ)
    (address : String) (tag : Option String) :
    (∀ t : String, tag = some t → t ≠ "" →
      (withdrawRequest currencyId amount address tag).lookup "paymentId" =
        some (.str t)) ∧
    ((tag = none ∨ tag = some "") →
      (withdrawRequest currencyId amount address tag).lookup "paymentId" =
        none) ∧
    ((tag = none ∨ tag = some "") →
      "paymentId" ∉
        (withdrawRequest currencyId amount address tag).map Prod.fst) := by
  refine ⟨?_, ?_, ?_⟩
  · rintro t rfl ht
    simp [withdrawRequest, ht, List.lookup]
  · rintro (rfl | rfl) <;> rfl
  · rintro (rfl | rfl) <;> simp [withdrawRequest]

/-- C9 witness: a concrete non-empty tag is carried under `paymentId`; an
absent and an empty tag produce no `paymentId` key. -/
theorem c9_withdraw_payment_id_witness :
    (withdrawRequest "ETH" 4 "0xdeadbeef" (some "MEMO")).lookup "paymentId" =
      some (.str "MEMO") ∧
    (withdrawRequest "ETH" 4 "0xdeadbeef" none).lookup "paymentId" = none ∧
    (withdrawRequest "ETH" 4 "0xdeadbeef" (some "")).lookup "paymentId" =
      none :=
  ⟨(c9_withdraw_payment_id "ETH" 4 "0xdeadbeef" (some "MEMO")).1 "MEMO" rfl
      (by decide),
    (c9_withdraw_payment_id "ETH" 4 "0xdeadbeef" none).2.1 (Or.inl rfl),
    (c9_withdraw_payment_id "ETH" 4 "0xdeadbeef" (some "")).2.1 (Or.inr rfl)⟩

/-! ## C8: request signing -/

/-- C8: for a private call, `sign` fails with `AuthenticationError` when
either credential is absent; otherwise it returns a request whose
`Authorization` header is `"Basic "` followed by the base64 of
`apiKey ++ ":" ++ secret`, the non-path parameters becoming a URL query
string for GET and a JSON body for any other method. -/
theorem c8_sign_private (apiKey secret path method : String)
    (params : List (String × JVal)) :
    ((apiKey = "" ∨ secret = "") →
      sign apiKey secret path "private" method params =
        .error .authenticationError) ∧
    (apiKey ≠ "" → secret ≠ "" →
      ∃ req, sign apiKey secret path "private" method params = .ok req ∧
        req.headers = some
          [ ("Authorization",
             "Basic " ++ stringToBase64 (apiKey ++ ":" ++ secret)),
            ("Content-Type", "application/json") ] ∧
        req.method = method ∧
        (method = "GET" → req.body = none ∧
          req.url = apiBase "private" ++
            (if signQuery path params ≠ [] then
              "/api/" ++ version ++ "/" ++ implodeParams path params ++
                "?" ++ urlencode (signQuery path params)
             else "/api/" ++ version ++ "/" ++ implodeParams path params)) ∧
        (method ≠ "GET" →
          req.body = (if signQuery path params ≠ [] then
              some (jsonEncode (signQuery path params)) else none) ∧
          req.url = apiBase "private" ++
            ("/api/" ++ version ++ "/" ++ implodeParams path params))) := by
  constructor
  · intro h
    simp only [sign]
    rw [if_neg (by decide : ¬("private" = "public")), if_pos h]
  · intro h1 h2
    have hngate : ¬(apiKey = "" ∨ secret = "") := not_or.mpr ⟨h1, h2⟩
    by_cases hm : method = "GET" <;> by_cases hq : signQuery path params ≠ []
    · refine ⟨⟨apiBase "private" ++
          ("/api/" ++ version ++ "/" ++ implodeParams path params ++ "?" ++
            urlencode (signQuery path params)),
          method, none,
          some [ ("Authorization",
                  "Basic " ++ stringToBase64 (apiKey ++ ":" ++ secret)),
                 ("Content-Type", "application/json") ]⟩, ?_, rfl, rfl,
        fun _ => ⟨rfl, by rw [if_pos hq]⟩, fun hne => absurd hm hne⟩
      simp only [sign]
      rw [if_neg (by decide : ¬("private" = "public")), if_neg hngate,
        if_pos hm, if_pos hq]
    · refine ⟨⟨apiBase "private" ++
          ("/api/" ++ version ++ "/" ++ implodeParams path params),
          method, none,
          some [ ("Authorization",
                  "Basic " ++ stringToBase64 (apiKey ++ ":" ++ secret)),
                 ("Content-Type", "application/json") ]⟩, ?_, rfl, rfl,
        fun _ => ⟨rfl, by rw [if_neg hq]⟩, fun hne => absurd hm hne⟩
      simp only [sign]
      rw [if_neg (by decide : ¬("private" = "public")), if_neg hngate,
        if_pos hm, if_neg hq]
    · refine ⟨⟨apiBase "private" ++
          ("/api/" ++ version ++ "/" ++ implodeParams path params),
          method, some (jsonEncode (signQuery path params)),
          some [ ("Authorization",
                  "Basic " ++ stringToBase64 (apiKey ++ ":" ++ secret)),
                 ("Content-Type", "application/json") ]⟩, ?_, rfl, rfl,
        fun hg => absurd hg hm, fun _ => ⟨by rw [if_pos hq], rfl⟩⟩
      simp only [sign]
      rw [if_neg (by decide : ¬("private" = "public")), if_neg hngate,
        if_neg hm, if_pos hq]
    · refine ⟨⟨apiBase "private" ++
          ("/api/" ++ version ++ "/" ++ implodeParams path params),
          method, none,
          some [ ("Authorization",
                  "Basic " ++ stringToBase64 (apiKey ++ ":" ++ secret)),
                 ("Content-Type", "application/json") ]⟩, ?_, rfl, rfl,
        fun hg => absurd hg hm, fun _ => ⟨by rw [if_neg hq], rfl⟩⟩
      simp only [sign]
      rw [if_neg (by decide : ¬("private" = "public")), if_neg hngate,
        if_neg hm, if_neg hq]

/-- C8 witness: absent credentials fail; with credentials `key`/`secret`, a
private POST carries `Authorization: Basic a2V5OnNlY3JldA==` (the base64 of
`key:secret`) and a JSON body of the non-path parameters. -/
theorem c8_sign_private_witness :
    sign "" "secret" "order" "private" "POST" [("symbol", JVal.str "ETHBTC")]
      = .error .authenticationError ∧
    ∃ req, sign "key" "secret" "order" "private" "POST"
        [("symbol", JVal.str "ETHBTC")] = .ok req ∧
      req.headers = some
        [ ("Authorization",
           "Basic " ++ stringToBase64 ("key" ++ ":" ++ "secret")),
          ("Content-Type", "application/json") ] ∧
      req.body = some (jsonEncode [("symbol", JVal.str "ETHBTC")]) ∧
      stringToBase64 ("key" ++ ":" ++ "secret") = "a2V5OnNlY3JldA==" := by
  constructor
  · exact (c8_sign_private "" "secret" "order" "POST"
      [("symbol", JVal.str "ETHBTC")]).1 (Or.inl rfl)
  · obtain ⟨req, hok, hh, hm, hget, hpost⟩ :=
      (c8_sign_private "key" "secret" "order" "POST"
        [("symbol", JVal.str "ETHBTC")]).2 (by decide) (by decide)
    obtain ⟨hb, hurl⟩ := hpost (by decide)
    refine ⟨req, hok, hh, ?_, by rfl⟩
    rw [hb,
      if_pos (show signQuery "order" [("symbol", JVal.str "ETHBTC")] ≠ []
        from by decide)]
    rfl

/-! ## C2: cost, fee and average from embedded fills -/

/-- An embedded fill (`tradesReport` entry) with price `p`, quantity `q`
and optional fee `f`. -/
def mkFill (p q : ℚ) (f : Option ℚ) : RawTrade :=
  { id := none, clientOrderId := none, symbol := none, timestamp := none,
    price := .num p, quantity := .num q,
    fee := match f with | some c => .num c | none => .undef,
    side := none }

/-- One step of the fills loop on a parsed fill, from a numeric
accumulator. -/
theorem fillStep_mkFill (mb : List (String × Market)) (m : Option Market)
    (p q : ℚ) (f : Option ℚ) (a b : ℚ) :
    fillStep (.num a, .num b) (parseTrade mb (mkFill p q f) m) =
      (.num (a + p * q), .num (b + f.getD 0)) := by
  cases f <;>
    simp [fillStep, parseTrade, mkFill, JsNum.mul, JsNum.add, JsNum.isDef]

/-- The first step of the fills loop, from the initial
`(0, undefined)` accumulator. -/
theorem fillStep_mkFill_start (mb : List (String × Market))
    (m : Option Market) (p q : ℚ) (f : Option ℚ) :
    fillStep (.num 0, .undef) (parseTrade mb (mkFill p q f) m) =
      (.num (0 + p * q), .num (0 + f.getD 0)) := by
  cases f <;>
    simp [fillStep, parseTrade, mkFill, JsNum.mul, JsNum.add, JsNum.isDef]

/-- The fills loop sums `price × quantity` and the defined fees. -/
theorem fillFold (mb : List (String × Market)) (m : Option Market)
    (l : List (ℚ × ℚ × Option ℚ)) (a b : ℚ) :
    (l.map (fun y => parseTrade mb (mkFill y.1 y.2.1 y.2.2) m)).foldl
        fillStep (.num a, .num b) =
      (.num (a + (l.map (fun y => y.1 * y.2.1)).sum),
       .num (b + (l.map (fun y => y.2.2.getD 0)).sum)) := by
  induction l generalizing a b with
  | nil => simp
  | cons x xs ih =>
    rw [List.map_cons, List.foldl_cons, fillStep_mkFill, ih]
    simp only [List.map_cons, List.sum_cons, Prod.mk.injEq, JsNum.num.injEq]
    constructor <;> ring

/-- The fills loop over a non-empty fill list, from the initial
accumulator. -/
theorem fillFold_cons (mb : List (String × Market)) (m : Option Market)
    (x : ℚ × ℚ × Option ℚ) (xs : List (ℚ × ℚ × Option ℚ)) :
    ((x :: xs).map (fun y => parseTrade mb (mkFill y.1 y.2.1 y.2.2) m)).foldl
        fillStep (.num 0, .undef) =
      (.num (((x :: xs).map (fun y => y.1 * y.2.1)).sum),
       .num (((x :: xs).map (fun y => y.2.2.getD 0)).sum)) := by
  rw [List.map_cons, List.foldl_cons, fillStep_mkFill_start, fillFold]
  simp only [List.map_cons, List.sum_cons, Prod.mk.injEq, JsNum.num.injEq]
  constructor <;> ring

/-- C2: on a raw order with a non-empty `tradesReport`, `parseOrder` sets
cost to the sum over the fills of `price × quantity`, sets `fee.cost` to
the sum of the fills' fee values (in the market's quote currency), and,
when the filled quantity is defined and positive, sets
`average = cost / filled`; if additionally the order type is `"market"`
and the price is still unset after the cache backfill, the price is set
to this average.  (The market in scope must resolve, otherwise the source
throws a `TypeError` at `market['quote']`.) -/
theorem c2_embedded_fills (marketsById : List (String × Market))
    (orders : List (String × UnifiedOrder)) (o : RawOrder)
    (m0 : Option Market) (m : Market) (fills : List (ℚ × ℚ × Option ℚ))
    (hts : o.tradesReport =
      some (fills.map (fun y => mkFill y.1 y.2.1 y.2.2)))
    (hne : fills ≠ [])
    (hm : (resolveOrderMarket marketsById o m0).2 = some m) :
    ∃ u, parseOrder marketsById orders o m0 = some u ∧
      u.cost = .num ((fills.map (fun y => y.1 * y.2.1)).sum) ∧
      u.fee = some ⟨.num ((fills.map (fun y => y.2.2.getD 0)).sum),
        some m.quote⟩ ∧
      ∀ fq : ℚ, o.cumQuantity = .num fq → 0 < fq →
        u.average = .num ((fills.map (fun y => y.1 * y.2.1)).sum / fq) ∧
        (o.type_ = some "market" →
          backfillPrice orders o.clientOrderId o.price = .undef →
          u.price = u.average) := by
  obtain ⟨x, xs, rfl⟩ := List.exists_cons_of_ne_nil hne
  simp only [parseOrder, hts, hm, List.map_map, Function.comp_def]
  rw [fillFold_cons]
  refine ⟨_, rfl, rfl, rfl, ?_⟩
  intro fq hfq hpos
  rw [hfq]
  rw [if_pos (show ((JsNum.num fq).isDef && (JsNum.num fq).gtZero) = true
    from by simp [JsNum.isDef, JsNum.gtZero, hpos])]
  constructor
  · show (JsNum.num _).div (.num fq) = _
    simp [JsNum.div, ne_of_gt hpos]
  · intro hmkt hbf
    rw [hmkt, hbf]
    rw [if_pos (show some "market" = some "market" ∧
      JsNum.isDef .undef = false from ⟨rfl, rfl⟩)]

/-- The spec's example fills: quantity 1 at price 100 with fee 0.1, and
quantity 1 at price 102 with fee 0.2. -/
def exampleFills : List (ℚ × ℚ × Option ℚ) :=
  [(100, 1, some (1/10)), (102, 1, some (2/10))]

/-- A market-order response carrying the example fills, filled quantity 2,
no price. -/
def marketOrderResponse : RawOrder :=
  { createdAt := none, updatedAt := none, symbol := none,
    quantity := .num 2, cumQuantity := .num 2, status := some "filled",
    clientOrderId := some "fe36aa5e", price := .undef,
    type_ := some "market", side := some "sell",
    tradesReport := some (exampleFills.map (fun y => mkFill y.1 y.2.1 y.2.2)) }

/-- C2 witness: the spec's example — two fills of quantity 1 at prices 100
(fee 0.1) and 102 (fee 0.2) — yields cost 202, fee cost 0.3, average 101,
and (market order without price) price 101. -/
theorem c2_embedded_fills_witness :
    ∃ u, parseOrder [] [] marketOrderResponse (some ethbtcMarket) = some u ∧
      u.cost = .num 202 ∧
      u.fee = some ⟨.num (3/10), some "BTC"⟩ ∧
      u.average = .num 101 ∧
      u.price = .num 101 := by
  obtain ⟨u, hu, hc, hf, havg⟩ := c2_embedded_fills [] [] marketOrderResponse
    (some ethbtcMarket) ethbtcMarket exampleFills rfl (by decide) rfl
  obtain ⟨ha, hp⟩ := havg 2 rfl (by norm_num)
  have hsum : ((exampleFills.map (fun y => y.1 * y.2.1)).sum : ℚ) = 202 := by
    norm_num [exampleFills]
  have hfee : ((exampleFills.map (fun y => y.2.2.getD 0)).sum : ℚ) = 3/10 := by
    norm_num [exampleFills]
  refine ⟨u, hu, ?_, ?_, ?_, ?_⟩
  · rw [hc, hsum]
  · rw [hf, hfee]
    rfl
  · rw [ha, hsum]
    norm_num
  · rw [hp rfl rfl, ha, hsum]
    norm_num

end Hitbtc
